import Mathlib

/-!
Verification of the dronealgo-ota update-distribution system.

The development shallowly embeds the Go sources:
* the standalone server (`handlePublish`, `handleCheck`, `handleDownload`,
  `isNewer`) from the unnamed server file,
* the gin controller (`ginPublishV1`, `ginPublishV2`, `ginCheck`) from
  `platform/cmd/server/router/router.go` (which holds two revisions of the
  `FileController`),
* the client poller (`runOnce`, `verifySha256`, `readCurrentVersion`) from the
  unnamed client file.

Go strings and byte slices are modelled as `List Char` (`GoStr`).  SHA-256 is
an external library collaborator; it is modelled as an arbitrary function
parameter `hash : GoStr → GoStr`, which is all the digest-plumbing properties
need.  Go maps are modelled as association lists with overwrite-on-insert.
-/

/-- Go strings (and byte slices) are modelled as lists of characters. -/
abbrev GoStr : Type := List Char

/-- Coerce a Lean string literal to the Go-string model. -/
def gs (s : String) : GoStr := s.data

/-- Lookup in a Go map modelled as an association list. -/
def alookup {α : Type} : List (GoStr × α) → GoStr → Option α
  | [], _ => none
  | (k, v) :: rest, key => if k = key then some v else alookup rest key

/-- Delete a key from a Go map (used for `os.Remove` and overwriting inserts). -/
def eraseKey {α : Type} (k : GoStr) : List (GoStr × α) → List (GoStr × α)
  | [] => []
  | p :: rest => if p.1 = k then eraseKey k rest else p :: eraseKey k rest

/-- Go map assignment `m[k] = v`: overwrite any previous binding of `k`. -/
def mapSet {α : Type} (k : GoStr) (v : α) (l : List (GoStr × α)) : List (GoStr × α) :=
  (k, v) :: eraseKey k l

theorem alookup_eraseKey {α : Type} (k : GoStr) (l : List (GoStr × α)) (key : GoStr) :
    alookup (eraseKey k l) key = if key = k then none else alookup l key := by
  induction l with
  | nil => simp [eraseKey, alookup]
  | cons p rest ih =>
    rcases p with ⟨pk, pv⟩
    by_cases hpk : pk = k
    · subst hpk
      have he : eraseKey pk ((pk, pv) :: rest) = eraseKey pk rest := by simp [eraseKey]
      rw [he, ih]
      by_cases hk : key = pk
      · simp [hk]
      · have hpkey : ¬ pk = key := fun h => hk h.symm
        simp [alookup, hk, hpkey]
    · simp only [eraseKey, if_neg hpk, alookup]
      by_cases hpkey : pk = key
      · subst hpkey
        simp [fun h : pk = k => hpk h, hpk]
      · simp [hpkey, ih]

theorem alookup_mapSet {α : Type} (k : GoStr) (v : α) (l : List (GoStr × α)) (key : GoStr) :
    alookup (mapSet k v l) key = if key = k then some v else alookup l key := by
  by_cases h : key = k
  · simp [mapSet, alookup, h]
  · have hk : ¬(k = key) := fun hh => h hh.symm
    simp [mapSet, alookup, hk, alookup_eraseKey, h]

/-- Everything before the first occurrence of `sep`; models `strings.SplitN(s, sep, 2)[0]`. -/
def splitN2First (sep : Char) (s : GoStr) : GoStr :=
  s.takeWhile (fun c => !(c == sep))

/-- Go `strings.Split(s, sep)` for a one-character separator.  Matches Go's
convention that splitting the empty string yields `[""]`. -/
def splitChar (sep : Char) : GoStr → List GoStr
  | [] => [[]]
  | c :: cs =>
    if c = sep then [] :: splitChar sep cs
    else
      match splitChar sep cs with
      | [] => [[c]]
      | p :: ps => (c :: p) :: ps

theorem splitChar_ne_nil (sep : Char) (s : GoStr) : splitChar sep s ≠ [] := by
  cases s with
  | nil => simp [splitChar]
  | cons c cs =>
    by_cases h : c = sep
    · simp [splitChar, h]
    · simp only [splitChar, h, if_false]
      cases splitChar sep cs <;> simp

/-- Decimal digit value of a character. -/
def digitVal (c : Char) : Int := Int.ofNat (c.toNat - 48)

/-- Go `strconv.Atoi`: optional sign then decimal digits; any syntax error
yields 0 (the calling code discards the error), and a range error yields the
clamped 64-bit value, exactly as `strconv.ParseInt` reports it. -/
def goAtoi (s : GoStr) : Int :=
  let core : Bool × GoStr :=
    match s with
    | '-' :: cs => (true, cs)
    | '+' :: cs => (false, cs)
    | _ => (false, s)
  let neg := core.1
  let digits := core.2
  if digits = [] then 0
  else if !digits.all Char.isDigit then 0
  else
    let n : Int := digits.foldl (fun a c => a * 10 + digitVal c) 0
    let v : Int := if neg then -n else n
    if v > 9223372036854775807 then 9223372036854775807
    else if v < -9223372036854775808 then -9223372036854775808
    else v

/-- The inner `parse` closure of `isNewer`: strip everything from the first
`-`, split on `.`, and read up to three components, a missing or unparsable
component counting as 0. -/
def parse3 (s : GoStr) : Int × Int × Int :=
  let stripped := splitN2First '-' s
  let parts := splitChar '.' stripped
  let get : Nat → Int := fun i =>
    match parts[i]? with
    | none => 0
    | some p => goAtoi p
  (get 0, get 1, get 2)

/-- `isNewer(a, b)` from the server sources (identical in the standalone
server and in the gin controller). -/
def isNewer (a b : GoStr) : Bool :=
  let pa := parse3 a
  let pb := parse3 b
  if pa.1 ≠ pb.1 then decide (pa.1 > pb.1)
  else if pa.2.1 ≠ pb.2.1 then decide (pa.2.1 > pb.2.1)
  else decide (pa.2.2 > pb.2.2)

/-- Strict lexicographic order on (major, minor, patch) triplets, as the spec
describes the comparison. -/
def tripletGT (a b : Int × Int × Int) : Prop :=
  a.1 > b.1 ∨ (a.1 = b.1 ∧ (a.2.1 > b.2.1 ∨ (a.2.1 = b.2.1 ∧ a.2.2 > b.2.2)))

/-- C3: `isNewer` parses both arguments into (major, minor, patch) triplets
(stripping any `-suffix`, treating missing or non-numeric components as 0, so
it is total) and returns true exactly when `a`'s triplet is strictly greater
than `b`'s lexicographically; the three example evaluations of the spec hold. -/
theorem isNewer_lex_and_examples :
    (∀ a b : GoStr, isNewer a b = true ↔ tripletGT (parse3 a) (parse3 b)) ∧
    isNewer (gs "1.2.0") (gs "1.1.9") = true ∧
    isNewer (gs "1.2.0-rc1") (gs "1.2.0") = false ∧
    isNewer (gs "1.0") (gs "1.0.0") = false := by
  refine ⟨?_, by decide, by decide, by decide⟩
  intro a b
  rcases ha : parse3 a with ⟨a1, a2, a3⟩
  rcases hb : parse3 b with ⟨b1, b2, b3⟩
  simp only [isNewer, tripletGT, ha, hb]
  split_ifs with h1 h2 <;> simp at * <;> omega

/-- ASCII whitespace recognised by Go `strings.TrimSpace` (the sources only
ever trim ASCII form values). -/
def isGoSpace (c : Char) : Bool :=
  c == ' ' || c == '\t' || c == '\n' || c == '\r' || c == '\x0b' || c == '\x0c'

/-- Go `strings.TrimSpace`. -/
def goTrimSpace (s : GoStr) : GoStr :=
  ((s.dropWhile isGoSpace).reverse.dropWhile isGoSpace).reverse

/-- Go `strings.TrimPrefix`: drop `pre` when it is a prefix, else return `s`
unchanged. -/
def goTrimPref (pre s : GoStr) : GoStr :=
  if pre.isPrefixOf s then s.drop pre.length else s

/-- Per-version artifact location `filepath.Join(artDir, version, "algorithm")`. -/
def artPath (version : GoStr) : GoStr :=
  gs "../../artifacts/" ++ version ++ gs "/algorithm"

/-- A release record as built by the publish handlers (`CreatedAt` is the
`time.Now()` value passed in as `now`; `FilePath` is server-internal). -/
structure Release where
  version : GoStr
  channel : GoStr
  url : GoStr
  sha256 : GoStr
  notes : GoStr
  createdAt : Nat
  filePath : GoStr
deriving DecidableEq

/-- The in-memory release store (both servers declare the same shape). -/
structure Store where
  releasesByVersion : List (GoStr × Release)
  latestByChannel : List (GoStr × GoStr)
deriving DecidableEq

/-- The store both servers start from before any publish. -/
def emptyStore : Store := ⟨[], []⟩

/-- The artifact repository: per-version stored bytes (the file at
`artifacts/<version>/algorithm`). -/
abbrev Repo := List (GoStr × GoStr)

/-- Body of a successful check response. -/
structure CheckResp where
  updateAvailable : Bool
  latest : Option Release
  message : GoStr
deriving DecidableEq

/-- Failure classes of the standalone publish handler: `validation` is the
HTTP 400 ("missing version" / "missing file") path, `persistence` the HTTP
500 `saveStore` failure path. -/
inductive PubErr
  | validation
  | persistence
deriving DecidableEq

/-- Result of one publish call: the HTTP outcome plus the store and artifact
repository afterwards. -/
structure PubOut where
  result : Except PubErr Release
  store : Store
  repo : Repo

/-- `handlePublish` of the standalone server.  `hash` is the SHA-256
collaborator, `now` the `time.Now()` reading, `file` the uploaded content
(`none` when the multipart form has no file), `persistOk` the outcome of the
`saveStore` snapshot write.  The digest is produced by `io.MultiWriter(dst, h)`:
the same bytes go to the artifact file and to the hasher, and no caller-supplied
digest exists anywhere in the request. -/
def handlePublish (hash : GoStr → GoStr) (now : Nat) (st : Store) (repo : Repo)
    (version0 channel0 notes : GoStr) (file : Option GoStr) (persistOk : Bool) : PubOut :=
  let version := goTrimSpace version0
  if version = [] then ⟨.error .validation, st, repo⟩
  else
    let channel := if channel0 = [] then gs "stable" else channel0
    match file with
    | none => ⟨.error .validation, st, repo⟩
    | some content =>
      let repoAfter := mapSet version content repo
      let sum := hash content
      let rel : Release :=
        ⟨version, channel, gs "/download/" ++ version, sum, notes, now, artPath version⟩
      let stAfter : Store :=
        ⟨mapSet version rel st.releasesByVersion, mapSet channel version st.latestByChannel⟩
      if persistOk then ⟨.ok rel, stAfter, repoAfter⟩
      else ⟨.error .persistence, stAfter, repoAfter⟩

/-- Failure classes of the standalone check handler: `notFound` is the HTTP
404 "no release in channel" path; `nilDeref` marks the nil-pointer crash Go
would hit when `latestByChannel` names a version absent from
`releasesByVersion` (the handler reads the map without an ok-check). -/
inductive CheckErr
  | notFound
  | nilDeref
deriving DecidableEq

/-- `handleCheck` of the standalone server (pure: it only reads the store
under `RLock`, so the store is not an output). -/
def handleCheck (st : Store) (channel0 current : GoStr) : Except CheckErr CheckResp :=
  let channel := if channel0 = [] then gs "stable" else channel0
  match alookup st.latestByChannel channel with
  | none => .error .notFound
  | some latestVersion =>
    match alookup st.releasesByVersion latestVersion with
    | none => .error .nilDeref
    | some latest =>
      if current = [] ∨ isNewer latest.version current then
        .ok ⟨true, some latest, gs "new version available"⟩
      else
        .ok ⟨false, some latest, gs "up to date"⟩

/-- Result classes of the standalone download handler: `badRequest` is the
HTTP 400 "version required" path, `notFound` the HTTP 404 "unknown version"
path, and `serve` streams the file at the release's `FilePath`. -/
inductive DlResult
  | badRequest
  | notFound
  | serve (filePath : GoStr)
deriving DecidableEq

/-- `handleDownload` of the standalone server: split the path remainder after
`/download/` on `/`, use the first segment as the version, and serve the
recorded artifact path. -/
def handleDownload (st : Store) (urlPath : GoStr) : DlResult :=
  let parts := splitChar '/' (goTrimPref (gs "/download/") urlPath)
  match parts with
  | [] => .badRequest
  | v :: _ =>
    if v = [] then .badRequest
    else
      match alookup st.releasesByVersion v with
      | none => .notFound
      | some rel => .serve rel.filePath

/-- Error codes of the gin `BaseController` (`controller.ErrCode`). -/
inductive ErrCode
  | OK
  | ErrParam
  | ErrInternal
deriving DecidableEq

/-- The gin `errSpec` table: HTTP status and message for each error code. -/
def errSpec : ErrCode → Nat × GoStr
  | .OK => (200, gs "OK")
  | .ErrParam => (400, gs "Bad Request")
  | .ErrInternal => (500, gs "Internal Server Error")

/-- One HTTP response written by the first-revision gin `Publish` handler
(either a `ResponseFailure` JSON or the 200 release JSON). -/
inductive GinResp
  | failure (e : ErrCode) (detail : GoStr)
  | okJson (rel : Release)
deriving DecidableEq

/-- Outcome of the first-revision gin `Publish`: because its `ResponseFailure`
calls are not followed by `return`, a single request can write several
responses, and a missing file makes `fileHeader.Open()` dereference a nil
pointer (recorded in `nilPanicked`). -/
structure GinV1Out where
  responses : List GinResp
  nilPanicked : Bool
  store : Store
  repo : Repo
deriving DecidableEq

/-- First revision of the gin `Publish` (router.go, first `FileController`
segment).  Faithful to the source: after a validation failure the handler
keeps running; `os.Create` truncates the per-version artifact before any
copy; and `io.Copy(io.MultiWriter(dst, h), f)` reads from `f` — the freshly
created, empty destination file — not from the uploaded `src`, so zero bytes
are appended and the digest is the hash of the empty byte string. -/
def ginPublishV1 (hash : GoStr → GoStr) (now : Nat) (st : Store) (repo : Repo)
    (version0 channel0 notes0 : GoStr) (file : Option GoStr) (persistOk : Bool) : GinV1Out :=
  let version := goTrimSpace version0
  let r1 : List GinResp :=
    if version = [] then [.failure .ErrParam (gs "version is required")] else []
  let channel := if goTrimSpace channel0 = [] then gs "stable" else goTrimSpace channel0
  let notes := goTrimSpace notes0
  let r2 : List GinResp :=
    r1 ++ (if file = none then [.failure .ErrParam (gs "missing file")] else [])
  let repoAfter := mapSet version [] repo
  match file with
  | none => ⟨r2, true, st, repoAfter⟩
  | some _ =>
    let sum := hash []
    let rel : Release :=
      ⟨version, channel, gs "/download/" ++ version, sum, notes, now, artPath version⟩
    let stAfter : Store :=
      ⟨mapSet version rel st.releasesByVersion, mapSet channel version st.latestByChannel⟩
    if persistOk then ⟨r2 ++ [.okJson rel], false, stAfter, repoAfter⟩
    else ⟨r2 ++ [.failure .ErrInternal (gs "save metadata")], false, stAfter, repoAfter⟩

/-- Outcome of the second-revision gin `Publish` (failures carry the
`ErrCode` and detail string handed to `ResponseFailure`). -/
structure GinPubOut where
  result : Except (ErrCode × GoStr) Release
  store : Store
  repo : Repo

/-- Second (current) revision of the gin `Publish`: every `ResponseFailure`
is followed by `return`, and the copy reads from the uploaded `src`, so the
digest is computed over exactly the bytes written to the artifact file. -/
def ginPublishV2 (hash : GoStr → GoStr) (now : Nat) (st : Store) (repo : Repo)
    (version0 channel0 notes0 : GoStr) (file : Option GoStr) (persistOk : Bool) : GinPubOut :=
  let version := goTrimSpace version0
  if version = [] then ⟨.error (.ErrParam, gs "version is required"), st, repo⟩
  else
    let channel := if goTrimSpace channel0 = [] then gs "stable" else goTrimSpace channel0
    let notes := goTrimSpace notes0
    match file with
    | none => ⟨.error (.ErrParam, gs "missing file"), st, repo⟩
    | some content =>
      let repoAfter := mapSet version content repo
      let sum := hash content
      let rel : Release :=
        ⟨version, channel, gs "/download/" ++ version, sum, notes, now, artPath version⟩
      let stAfter : Store :=
        ⟨mapSet version rel st.releasesByVersion, mapSet channel version st.latestByChannel⟩
      if persistOk then ⟨.ok rel, stAfter, repoAfter⟩
      else ⟨.error (.ErrInternal, gs "save metadata"), stAfter, repoAfter⟩

/-- Failure of the gin `Check` handler: either a `ResponseFailure` (code and
detail) or the nil-pointer crash on a broken store. -/
inductive GinCheckErr
  | failure (e : ErrCode) (detail : GoStr)
  | nilDeref
deriving DecidableEq

/-- The gin `Check` handler.  `channelQ` models `g.DefaultQuery("channel",
"stable")` (`none` when the query parameter is absent); the handler first
re-reads the persisted snapshot via `loadStore`, modelled by taking the
post-load in-memory store as input.  A channel with no release is reported
through `ResponseFailure(ErrInternal, "no release in channel")`. -/
def ginCheck (st : Store) (channelQ : Option GoStr) (current : GoStr) :
    Except GinCheckErr CheckResp :=
  let channel := channelQ.getD (gs "stable")
  match alookup st.latestByChannel channel with
  | none => .error (.failure .ErrInternal (gs "no release in channel"))
  | some latestVersion =>
    match alookup st.releasesByVersion latestVersion with
    | none => .error .nilDeref
    | some latest =>
      if current = [] ∨ isNewer latest.version current then
        .ok ⟨true, some latest, gs "new version available"⟩
      else
        .ok ⟨false, some latest, gs "up to date"⟩

/-- A concrete, injective stand-in for the SHA-256 collaborator, used to
instantiate the abstract `hash` parameter in closed evaluations. -/
def demoHash (s : GoStr) : GoStr := 'h' :: s

/-- C4: whenever the consulted channel (the request channel, defaulted to
"stable" when empty or absent) has a recorded latest version whose release
exists, both check handlers answer 200 and set `updateAvailable` exactly when
`current` is empty or `isNewer(latest.version, current)` holds. -/
theorem check_updateAvailable_iff (st : Store) (current lv : GoStr) (latest : Release)
    (hrel : alookup st.releasesByVersion lv = some latest) :
    (∀ channel0 : GoStr,
       alookup st.latestByChannel (if channel0 = [] then gs "stable" else channel0) = some lv →
       ∃ resp : CheckResp, handleCheck st channel0 current = .ok resp ∧
         (resp.updateAvailable = true ↔ (current = [] ∨ isNewer latest.version current = true))) ∧
    (∀ channelQ : Option GoStr,
       alookup st.latestByChannel (channelQ.getD (gs "stable")) = some lv →
       ∃ resp : CheckResp, ginCheck st channelQ current = .ok resp ∧
         (resp.updateAvailable = true ↔ (current = [] ∨ isNewer latest.version current = true))) := by
  constructor
  · intro channel0 hch
    by_cases hc : current = [] ∨ isNewer latest.version current = true
    · refine ⟨⟨true, some latest, gs "new version available"⟩, ?_, ?_⟩
      · simp [handleCheck, hch, hrel, hc]
      · simpa using hc
    · refine ⟨⟨false, some latest, gs "up to date"⟩, ?_, ?_⟩
      · simp [handleCheck, hch, hrel, hc]
      · simp [hc]
  · intro channelQ hch
    by_cases hc : current = [] ∨ isNewer latest.version current = true
    · refine ⟨⟨true, some latest, gs "new version available"⟩, ?_, ?_⟩
      · simp [ginCheck, hch, hrel, hc]
      · simpa using hc
    · refine ⟨⟨false, some latest, gs "up to date"⟩, ?_, ?_⟩
      · simp [ginCheck, hch, hrel, hc]
      · simp [hc]

/-- C4 witness: a concrete store on which the update decision is exercised in
both directions through the theorem. -/
theorem check_updateAvailable_iff_witness :
    (∃ resp : CheckResp,
       handleCheck ⟨[(gs "1.1.0",
           ⟨gs "1.1.0", gs "stable", gs "/download/1.1.0", gs "d", [], 0, artPath (gs "1.1.0")⟩)],
           [(gs "stable", gs "1.1.0")]⟩ [] (gs "1.0.0") = .ok resp ∧
       (resp.updateAvailable = true ↔
         (gs "1.0.0" = [] ∨ isNewer (gs "1.1.0") (gs "1.0.0") = true))) := by
  have h := (check_updateAvailable_iff
    ⟨[(gs "1.1.0",
        ⟨gs "1.1.0", gs "stable", gs "/download/1.1.0", gs "d", [], 0, artPath (gs "1.1.0")⟩)],
        [(gs "stable", gs "1.1.0")]⟩
    (gs "1.0.0") (gs "1.1.0")
    ⟨gs "1.1.0", gs "stable", gs "/download/1.1.0", gs "d", [], 0, artPath (gs "1.1.0")⟩
    (by decide)).1 [] (by decide)
  simpa using h

/-- C5 counterexample: on the gin controller a check against a channel with
no release is answered through `ResponseFailure(ErrInternal, ...)`, whose
HTTP status in `errSpec` is 500 — an internal-error class, not a
NotFound-class (404) failure as the claim states for every check call. -/
theorem ginCheck_missing_channel_is_500 :
    ginCheck emptyStore (some (gs "stable")) [] =
      .error (.failure .ErrInternal (gs "no release in channel")) ∧
    (errSpec .ErrInternal).1 = 500 ∧ ¬((errSpec .ErrInternal).1 = 404) := by
  exact ⟨rfl, rfl, by decide⟩

/-- C5 amended: a check on a channel with no recorded release fails, with no
store mutation (both handlers are pure readers of the store), and with
exactly one failure class for that condition: the standalone server answers
with its NotFound class (HTTP 404) — and with no other error class, as the
iff shows — while the gin controller, whose `ErrCode` enum has no NotFound
member, reports the same condition through `ErrInternal` (HTTP 500). -/
theorem check_missing_channel_error_class (st : Store) (channel0 current : GoStr)
    (channelQ : Option GoStr) :
    (handleCheck st channel0 current = .error .notFound ↔
       alookup st.latestByChannel (if channel0 = [] then gs "stable" else channel0) = none) ∧
    (ginCheck st channelQ current = .error (.failure .ErrInternal (gs "no release in channel")) ↔
       alookup st.latestByChannel (channelQ.getD (gs "stable")) = none) := by
  constructor
  · rcases hch : alookup st.latestByChannel (if channel0 = [] then gs "stable" else channel0)
        with _ | lv
    · simp [handleCheck, hch]
    · rcases hrel : alookup st.releasesByVersion lv with _ | latest
      · simp [handleCheck, hch, hrel]
      · by_cases hc : current = [] ∨ isNewer latest.version current = true
        · simp [handleCheck, hch, hrel, hc]
        · simp [handleCheck, hch, hrel, hc]
  · rcases hch : alookup st.latestByChannel (channelQ.getD (gs "stable")) with _ | lv
    · simp [ginCheck, hch]
    · rcases hrel : alookup st.releasesByVersion lv with _ | latest
      · simp [ginCheck, hch, hrel]
      · by_cases hc : current = [] ∨ isNewer latest.version current = true
        · simp [ginCheck, hch, hrel, hc]
        · simp [ginCheck, hch, hrel, hc]

/-- C9: when the artifact write succeeded but the snapshot persistence fails,
both current publish handlers report a persistence-class failure while the
in-memory mutation stays in place: `releasesByVersion` holds the new release
(with the server-computed digest) and `latestByChannel` points at the new
version. -/
theorem publish_persist_fail_keeps_mutation
    (hash : GoStr → GoStr) (now : Nat) (st : Store) (repo : Repo)
    (version0 channel0 notes content : GoStr)
    (hv : ¬(goTrimSpace version0 = [])) :
    ((handlePublish hash now st repo version0 channel0 notes (some content) false).result
        = .error .persistence ∧
      (∃ rel : Release,
        alookup (handlePublish hash now st repo version0 channel0 notes
            (some content) false).store.releasesByVersion (goTrimSpace version0) = some rel ∧
        rel.version = goTrimSpace version0 ∧ rel.sha256 = hash content) ∧
      alookup (handlePublish hash now st repo version0 channel0 notes
          (some content) false).store.latestByChannel
          (if channel0 = [] then gs "stable" else channel0) = some (goTrimSpace version0)) ∧
    ((ginPublishV2 hash now st repo version0 channel0 notes (some content) false).result
        = .error (.ErrInternal, gs "save metadata") ∧
      (∃ rel : Release,
        alookup (ginPublishV2 hash now st repo version0 channel0 notes
            (some content) false).store.releasesByVersion (goTrimSpace version0) = some rel ∧
        rel.version = goTrimSpace version0 ∧ rel.sha256 = hash content) ∧
      alookup (ginPublishV2 hash now st repo version0 channel0 notes
          (some content) false).store.latestByChannel
          (if goTrimSpace channel0 = [] then gs "stable" else goTrimSpace channel0)
          = some (goTrimSpace version0)) := by
  constructor
  · refine ⟨by simp [handlePublish, hv], ⟨?_, ?_⟩⟩
    · refine ⟨⟨goTrimSpace version0, if channel0 = [] then gs "stable" else channel0,
        gs "/download/" ++ goTrimSpace version0, hash content, notes, now,
        artPath (goTrimSpace version0)⟩, ?_, rfl, rfl⟩
      simp [handlePublish, hv, alookup_mapSet]
    · simp [handlePublish, hv, alookup_mapSet]
  · refine ⟨by simp [ginPublishV2, hv], ⟨?_, ?_⟩⟩
    · refine ⟨⟨goTrimSpace version0,
        if goTrimSpace channel0 = [] then gs "stable" else goTrimSpace channel0,
        gs "/download/" ++ goTrimSpace version0, hash content, goTrimSpace notes, now,
        artPath (goTrimSpace version0)⟩, ?_, rfl, rfl⟩
      simp [ginPublishV2, hv, alookup_mapSet]
    · simp [ginPublishV2, hv, alookup_mapSet]

/-- C9 witness: a concrete failed-persistence publish, through the theorem. -/
theorem publish_persist_fail_keeps_mutation_witness :
    (handlePublish demoHash 0 emptyStore [] (gs "1.0.0") [] [] (some (gs "abc")) false).result
      = .error .persistence ∧
    (∃ rel : Release,
      alookup (handlePublish demoHash 0 emptyStore [] (gs "1.0.0") [] [] (some (gs "abc"))
          false).store.releasesByVersion (goTrimSpace (gs "1.0.0")) = some rel ∧
      rel.version = goTrimSpace (gs "1.0.0") ∧ rel.sha256 = demoHash (gs "abc")) ∧
    alookup (handlePublish demoHash 0 emptyStore [] (gs "1.0.0") [] [] (some (gs "abc"))
        false).store.latestByChannel (if ([] : GoStr) = [] then gs "stable" else []) =
        some (goTrimSpace (gs "1.0.0")) :=
  (publish_persist_fail_keeps_mutation demoHash 0 emptyStore [] (gs "1.0.0") [] []
    (gs "abc") (by decide)).1

/-- C1: in the standalone server and in the current gin `Publish`, a
successful publish stores the uploaded bytes at the per-version location and
the digest of the returned release — the same record that
`releasesByVersion[version]` holds — is the hash of exactly those bytes (the
request carries no caller-supplied digest anywhere).  The first-revision gin
`Publish` cited by the claim violates this: copying from the freshly created
empty destination file instead of from the upload, it stores an empty
artifact and the hash of the empty byte string, as the closed evaluation at
version "1.0.0" with uploaded content "abc" shows. -/
theorem publish_digest_over_written_bytes :
    (∀ (hash : GoStr → GoStr) (now : Nat) (st : Store) (repo : Repo)
       (version0 channel0 notes content : GoStr) (persistOk : Bool) (rel : Release),
       (handlePublish hash now st repo version0 channel0 notes (some content) persistOk).result
           = .ok rel →
       rel.sha256 = hash content ∧
       alookup (handlePublish hash now st repo version0 channel0 notes (some content)
           persistOk).repo (goTrimSpace version0) = some content ∧
       alookup (handlePublish hash now st repo version0 channel0 notes (some content)
           persistOk).store.releasesByVersion (goTrimSpace version0) = some rel) ∧
    (∀ (hash : GoStr → GoStr) (now : Nat) (st : Store) (repo : Repo)
       (version0 channel0 notes content : GoStr) (persistOk : Bool) (rel : Release),
       (ginPublishV2 hash now st repo version0 channel0 notes (some content) persistOk).result
           = .ok rel →
       rel.sha256 = hash content ∧
       alookup (ginPublishV2 hash now st repo version0 channel0 notes (some content)
           persistOk).repo (goTrimSpace version0) = some content ∧
       alookup (ginPublishV2 hash now st repo version0 channel0 notes (some content)
           persistOk).store.releasesByVersion (goTrimSpace version0) = some rel) ∧
    ((ginPublishV1 demoHash 0 emptyStore [] (gs "1.0.0") (gs "stable") [] (some (gs "abc"))
        true).responses =
      [.okJson ⟨gs "1.0.0", gs "stable", gs "/download/1.0.0", demoHash [], [], 0,
        artPath (gs "1.0.0")⟩] ∧
     alookup (ginPublishV1 demoHash 0 emptyStore [] (gs "1.0.0") (gs "stable") []
        (some (gs "abc")) true).repo (gs "1.0.0") = some [] ∧
     ¬(demoHash [] = demoHash (gs "abc")) ∧ ¬(([] : GoStr) = gs "abc")) := by
  refine ⟨?_, ?_, by decide, by decide, by decide, by decide⟩
  · intro hash now st repo version0 channel0 notes content persistOk rel hok
    by_cases hv : goTrimSpace version0 = []
    · simp [handlePublish, hv] at hok
    · cases persistOk with
      | false => simp [handlePublish, hv] at hok
      | true =>
        simp only [handlePublish, hv, if_false, ite_true] at hok
        injection hok with h
        subst h
        refine ⟨rfl, ?_, ?_⟩
        · simp [handlePublish, hv, alookup_mapSet]
        · simp [handlePublish, hv, alookup_mapSet]
  · intro hash now st repo version0 channel0 notes content persistOk rel hok
    by_cases hv : goTrimSpace version0 = []
    · simp [ginPublishV2, hv] at hok
    · cases persistOk with
      | false => simp [ginPublishV2, hv] at hok
      | true =>
        simp only [ginPublishV2, hv, if_false, ite_true] at hok
        injection hok with h
        subst h
        refine ⟨rfl, ?_, ?_⟩
        · simp [ginPublishV2, hv, alookup_mapSet]
        · simp [ginPublishV2, hv, alookup_mapSet]

/-- C1 witness: a concrete successful publish through the theorem's first
branch, with the demo hash. -/
theorem publish_digest_over_written_bytes_witness :
    (⟨gs "1.0.0", gs "stable", gs "/download/1.0.0", demoHash (gs "abc"), [], 0,
        artPath (gs "1.0.0")⟩ : Release).sha256 = demoHash (gs "abc") ∧
    alookup (handlePublish demoHash 0 emptyStore [] (gs "1.0.0") [] [] (some (gs "abc"))
        true).repo (goTrimSpace (gs "1.0.0")) = some (gs "abc") ∧
    alookup (handlePublish demoHash 0 emptyStore [] (gs "1.0.0") [] [] (some (gs "abc"))
        true).store.releasesByVersion (goTrimSpace (gs "1.0.0")) =
      some ⟨gs "1.0.0", gs "stable", gs "/download/1.0.0", demoHash (gs "abc"), [], 0,
        artPath (gs "1.0.0")⟩ :=
  publish_digest_over_written_bytes.1 demoHash 0 emptyStore [] (gs "1.0.0") [] []
    (gs "abc") true
    ⟨gs "1.0.0", gs "stable", gs "/download/1.0.0", demoHash (gs "abc"), [], 0,
      artPath (gs "1.0.0")⟩ rfl

/-- C8: in the standalone server and in the current gin `Publish`, a blank
(post-trim) version or an absent file is rejected with a validation-class
failure and leaves the store and the artifact repository untouched.  The
first-revision gin `Publish` cited by the claim violates this: its
`ResponseFailure` calls are not followed by `return`, so after answering 400
for a blank version it still creates the artifact file, registers the release
under the empty version key, repoints the channel, and answers 200, as the
closed evaluation at version " " with a file present shows. -/
theorem publish_validation_no_side_effects :
    (∀ (hash : GoStr → GoStr) (now : Nat) (st : Store) (repo : Repo)
       (version0 channel0 notes : GoStr) (file : Option GoStr) (persistOk : Bool),
       goTrimSpace version0 = [] ∨ file = none →
       handlePublish hash now st repo version0 channel0 notes file persistOk =
         ⟨.error .validation, st, repo⟩) ∧
    (∀ (hash : GoStr → GoStr) (now : Nat) (st : Store) (repo : Repo)
       (version0 channel0 notes : GoStr) (file : Option GoStr) (persistOk : Bool),
       goTrimSpace version0 = [] ∨ file = none →
       (ginPublishV2 hash now st repo version0 channel0 notes file persistOk).store = st ∧
       (ginPublishV2 hash now st repo version0 channel0 notes file persistOk).repo = repo ∧
       ∃ d : GoStr, (ginPublishV2 hash now st repo version0 channel0 notes file
           persistOk).result = .error (.ErrParam, d)) ∧
    ((ginPublishV1 demoHash 0 emptyStore [] (gs " ") (gs "stable") [] (some (gs "abc"))
        true).responses =
      [.failure .ErrParam (gs "version is required"),
       .okJson ⟨[], gs "stable", gs "/download/", demoHash [], [], 0, artPath []⟩] ∧
     alookup (ginPublishV1 demoHash 0 emptyStore [] (gs " ") (gs "stable") []
        (some (gs "abc")) true).store.releasesByVersion [] =
       some ⟨[], gs "stable", gs "/download/", demoHash [], [], 0, artPath []⟩ ∧
     alookup (ginPublishV1 demoHash 0 emptyStore [] (gs " ") (gs "stable") []
        (some (gs "abc")) true).store.latestByChannel (gs "stable") = some [] ∧
     alookup (ginPublishV1 demoHash 0 emptyStore [] (gs " ") (gs "stable") []
        (some (gs "abc")) true).repo [] = some []) := by
  refine ⟨?_, ?_, by decide, by decide, by decide, by decide⟩
  · intro hash now st repo version0 channel0 notes file persistOk h
    rcases h with hv | hf
    · simp [handlePublish, hv]
    · subst hf
      by_cases hv : goTrimSpace version0 = [] <;> simp [handlePublish, hv]
  · intro hash now st repo version0 channel0 notes file persistOk h
    rcases h with hv | hf
    · refine ⟨?_, ?_, gs "version is required", ?_⟩ <;> simp [ginPublishV2, hv]
    · subst hf
      by_cases hv : goTrimSpace version0 = []
      · refine ⟨?_, ?_, gs "version is required", ?_⟩ <;> simp [ginPublishV2, hv]
      · refine ⟨?_, ?_, gs "missing file", ?_⟩ <;> simp [ginPublishV2, hv]

/-- C8 witness: a concrete rejected publish (blank version) through the
theorem's first branch. -/
theorem publish_validation_no_side_effects_witness :
    handlePublish demoHash 0 emptyStore [] (gs "  ") (gs "beta") [] (some (gs "abc")) true =
      ⟨.error .validation, emptyStore, []⟩ :=
  publish_validation_no_side_effects.1 demoHash 0 emptyStore [] (gs "  ") (gs "beta") []
    (some (gs "abc")) true (.inl (by decide))

/-- The channel-consistency invariant of the release store: every channel's
latest version names an existing release record. -/
def StoreInv (st : Store) : Prop :=
  ∀ ch v : GoStr, alookup st.latestByChannel ch = some v →
    ∃ r : Release, alookup st.releasesByVersion v = some r

/-- The publish mutation pattern (insert the release, repoint the channel)
preserves the store invariant. -/
theorem storeInv_mapSet (st : Store) (version channel : GoStr) (rel : Release)
    (h : StoreInv st) :
    StoreInv ⟨mapSet version rel st.releasesByVersion,
      mapSet channel version st.latestByChannel⟩ := by
  intro ch v hv
  rw [alookup_mapSet] at hv
  by_cases hc : ch = channel
  · simp only [hc, eq_self_iff_true, if_true, Option.some.injEq] at hv
    subst hv
    exact ⟨rel, by simp [alookup_mapSet]⟩
  · rw [if_neg hc] at hv
    obtain ⟨r, hr⟩ := h ch v hv
    by_cases hvv : v = version
    · exact ⟨rel, by simp [alookup_mapSet, hvv]⟩
    · exact ⟨r, by simp [alookup_mapSet, hvv, hr]⟩

/-- `handlePublish` preserves the store invariant. -/
theorem handlePublish_preserves_storeInv (hash : GoStr → GoStr) (now : Nat)
    (st : Store) (repo : Repo) (version0 channel0 notes : GoStr)
    (file : Option GoStr) (persistOk : Bool) (h : StoreInv st) :
    StoreInv (handlePublish hash now st repo version0 channel0 notes file persistOk).store := by
  by_cases hv : goTrimSpace version0 = []
  · simpa [handlePublish, hv] using h
  · cases file with
    | none => simpa [handlePublish, hv] using h
    | some content =>
      cases persistOk with
      | false =>
        simp only [handlePublish, hv, if_false, ite_false]
        exact storeInv_mapSet st _ _ _ h
      | true =>
        simp only [handlePublish, hv, if_false, ite_true]
        exact storeInv_mapSet st _ _ _ h

/-- `ginPublishV2` preserves the store invariant. -/
theorem ginPublishV2_preserves_storeInv (hash : GoStr → GoStr) (now : Nat)
    (st : Store) (repo : Repo) (version0 channel0 notes0 : GoStr)
    (file : Option GoStr) (persistOk : Bool) (h : StoreInv st) :
    StoreInv (ginPublishV2 hash now st repo version0 channel0 notes0 file persistOk).store := by
  by_cases hv : goTrimSpace version0 = []
  · simpa [ginPublishV2, hv] using h
  · cases file with
    | none => simpa [ginPublishV2, hv] using h
    | some content =>
      cases persistOk with
      | false =>
        simp only [ginPublishV2, hv, if_false, ite_false]
        exact storeInv_mapSet st _ _ _ h
      | true =>
        simp only [ginPublishV2, hv, if_false, ite_true]
        exact storeInv_mapSet st _ _ _ h

/-- One request against the server, for the reachability statement: either
publish handler, a check, or a download. -/
inductive Op
  | pub (now : Nat) (version channel notes : GoStr) (file : Option GoStr) (persistOk : Bool)
  | ginPub (now : Nat) (version channel notes : GoStr) (file : Option GoStr) (persistOk : Bool)
  | chk (channel current : GoStr)
  | dl (urlPath : GoStr)

/-- Apply one request to the server state (store plus artifact repository);
check and download only read the store and leave the state unchanged. -/
def applyOp (hash : GoStr → GoStr) (s : Store × Repo) : Op → Store × Repo
  | .pub now v ch notes file p =>
    let out := handlePublish hash now s.1 s.2 v ch notes file p
    (out.store, out.repo)
  | .ginPub now v ch notes file p =>
    let out := ginPublishV2 hash now s.1 s.2 v ch notes file p
    (out.store, out.repo)
  | .chk ch cur =>
    let _ := handleCheck s.1 ch cur
    s
  | .dl p =>
    let _ := handleDownload s.1 p
    s

/-- C7: starting from the empty store, after any sequence of publish, check,
and download requests, every version recorded in `latestByChannel` has a
corresponding entry in `releasesByVersion` (including runs in which snapshot
persistence failed, since the in-memory mutation is applied atomically under
the exclusive lock). -/
theorem store_invariant_reachable (hash : GoStr → GoStr) (ops : List Op) :
    StoreInv (List.foldl (applyOp hash) (emptyStore, ([] : Repo)) ops).1 := by
  have base : StoreInv emptyStore := by
    intro ch v hv
    simp [emptyStore, alookup] at hv
  have step : ∀ (s : Store × Repo), StoreInv s.1 → ∀ op : Op, StoreInv (applyOp hash s op).1 := by
    intro s hs op
    cases op with
    | pub now v ch notes file p =>
      simpa [applyOp] using handlePublish_preserves_storeInv hash now s.1 s.2 v ch notes file p hs
    | ginPub now v ch notes file p =>
      simpa [applyOp] using ginPublishV2_preserves_storeInv hash now s.1 s.2 v ch notes file p hs
    | chk ch cur => simpa [applyOp] using hs
    | dl p => simpa [applyOp] using hs
  suffices hfold : ∀ (l : List Op) (s : Store × Repo),
      StoreInv s.1 → StoreInv (List.foldl (applyOp hash) s l).1 by
    exact hfold ops (emptyStore, []) base
  intro l
  induction l with
  | nil => intro s hs; simpa using hs
  | cons op rest ih =>
    intro s hs
    exact ih (applyOp hash s op) (step s hs op)

theorem splitChar_no_sep (sep : Char) (v : GoStr) (hv : sep ∉ v) :
    splitChar sep v = [v] := by
  induction v with
  | nil => simp [splitChar]
  | cons c cs ih =>
    have hc : ¬(c = sep) := fun h => hv (by simp [h])
    have hcs : sep ∉ cs := fun h => hv (List.mem_cons_of_mem _ h)
    simp [splitChar, hc, ih hcs]

theorem splitChar_append_sep (sep : Char) (v rest : GoStr) (hv : sep ∉ v) :
    splitChar sep (v ++ sep :: rest) = v :: splitChar sep rest := by
  induction v with
  | nil => simp [splitChar]
  | cons c cs ih =>
    have hc : ¬(c = sep) := fun h => hv (by simp [h])
    have hcs : sep ∉ cs := fun h => hv (List.mem_cons_of_mem _ h)
    simp only [List.cons_append, splitChar, hc, if_false]
    rw [show cs.append (sep :: rest) = cs ++ sep :: rest from rfl, ih hcs]

theorem goTrimPref_append (pre s : GoStr) : goTrimPref pre (pre ++ s) = s := by
  have hp : pre.isPrefixOf (pre ++ s) = true := by
    rw [List.isPrefixOf_iff_prefix]
    exact List.prefix_append pre s
  simp [goTrimPref, hp]

/-- C10: the download handler resolves the version from the first path
segment after `/download/` only.  Trailing segments are ignored; the paths
`/download/` and `/download//...` have an empty first segment and are
rejected with the 400 "version required" answer before any store lookup; an
unknown first segment yields the 404 answer with no bytes served; a known one
serves exactly that release's artifact path. -/
theorem download_first_segment_semantics (st : Store) (v rest extra : GoStr)
    (hv : '/' ∉ v) :
    (handleDownload st (gs "/download/" ++ (v ++ '/' :: rest)) =
       handleDownload st (gs "/download/" ++ v)) ∧
    handleDownload st (gs "/download/") = .badRequest ∧
    handleDownload st (gs "/download/" ++ '/' :: extra) = .badRequest ∧
    (¬(v = []) → alookup st.releasesByVersion v = none →
       handleDownload st (gs "/download/" ++ v) = .notFound) ∧
    (∀ rel : Release, ¬(v = []) → alookup st.releasesByVersion v = some rel →
       handleDownload st (gs "/download/" ++ v) = .serve rel.filePath) := by
  have htrim : goTrimPref (gs "/download/") (gs "/download/") = ([] : GoStr) := rfl
  refine ⟨?_, ?_, ?_, ?_, ?_⟩
  · simp only [handleDownload, goTrimPref_append, splitChar_append_sep '/' v rest hv,
      splitChar_no_sep '/' v hv]
  · simp [handleDownload, htrim, splitChar]
  · simp only [handleDownload, goTrimPref_append]
    simp [splitChar]
  · intro hne hlook
    simp [handleDownload, goTrimPref_append, splitChar_no_sep '/' v hv, hne, hlook]
  · intro rel hne hlook
    simp [handleDownload, goTrimPref_append, splitChar_no_sep '/' v hv, hne, hlook]

/-- C10 witness: the theorem applied to a one-release store at version
"1.0.0" with a trailing segment. -/
theorem download_first_segment_semantics_witness :
    (handleDownload
        ⟨[(gs "1.0.0",
            ⟨gs "1.0.0", gs "stable", gs "/download/1.0.0", gs "d", [], 0,
              artPath (gs "1.0.0")⟩)], [(gs "stable", gs "1.0.0")]⟩
        (gs "/download/" ++ (gs "1.0.0" ++ '/' :: gs "algorithm")) =
      handleDownload
        ⟨[(gs "1.0.0",
            ⟨gs "1.0.0", gs "stable", gs "/download/1.0.0", gs "d", [], 0,
              artPath (gs "1.0.0")⟩)], [(gs "stable", gs "1.0.0")]⟩
        (gs "/download/" ++ gs "1.0.0")) ∧
    handleDownload
        ⟨[(gs "1.0.0",
            ⟨gs "1.0.0", gs "stable", gs "/download/1.0.0", gs "d", [], 0,
              artPath (gs "1.0.0")⟩)], [(gs "stable", gs "1.0.0")]⟩
        (gs "/download/") = .badRequest :=
  ⟨(download_first_segment_semantics
      ⟨[(gs "1.0.0",
          ⟨gs "1.0.0", gs "stable", gs "/download/1.0.0", gs "d", [], 0,
            artPath (gs "1.0.0")⟩)], [(gs "stable", gs "1.0.0")]⟩
      (gs "1.0.0") (gs "algorithm") [] (by decide)).1,
   (download_first_segment_semantics
      ⟨[(gs "1.0.0",
          ⟨gs "1.0.0", gs "stable", gs "/download/1.0.0", gs "d", [], 0,
            artPath (gs "1.0.0")⟩)], [(gs "stable", gs "1.0.0")]⟩
      (gs "1.0.0") (gs "algorithm") [] (by decide)).2.1⟩

/-- Client-side state: the files in the install directory (name to content),
the `algo_current` symlink target, and the supervised process (the path
`startAlgorithm` was given, `none` when no process is tracked). -/
structure ClientState where
  files : List (GoStr × GoStr)
  link : Option GoStr
  running : Option GoStr
deriving DecidableEq

/-- The `current_version` record file name (`currentVerFP` relative to the
install directory). -/
def recName : GoStr := gs "current_version"

/-- The temporary download file name `download_<version>`. -/
def tmpName (version : GoStr) : GoStr := gs "download_" ++ version

/-- The installed per-version artifact name `algo_<version>`. -/
def dstName (version : GoStr) : GoStr := gs "algo_" ++ version

/-- The active-version indicator name `algo_current`. -/
def linkName : GoStr := gs "algo_current"

theorem recName_ne_tmpName (v : GoStr) : ¬(recName = tmpName v) := by
  intro h
  have hh := congrArg List.head? h
  rw [show List.head? recName = some 'c' from rfl] at hh
  rw [show List.head? (tmpName v) = some 'd' from rfl] at hh
  simp at hh

theorem recName_ne_dstName (v : GoStr) : ¬(recName = dstName v) := by
  intro h
  have hh := congrArg List.head? h
  rw [show List.head? recName = some 'c' from rfl] at hh
  rw [show List.head? (dstName v) = some 'a' from rfl] at hh
  simp at hh

/-- `readCurrentVersion`: the record file's content, or the empty string on
any read error (file absent). -/
def readCurrentVersion (st : ClientState) : GoStr :=
  (alookup st.files recName).getD []

/-- `verifySha256(fp, want)`: open the file, hash its contents, compare the
hex digest with `want`; an open/read error is reported as an error. -/
def verifySha256 (hash : GoStr → GoStr) (files : List (GoStr × GoStr)) (fp want : GoStr) :
    Except GoStr Bool :=
  match alookup files fp with
  | none => .error (gs "open failed")
  | some content => .ok (hash content == want)

/-- Outcome of `downloadToFile`: an HTTP/status error before the file is
created, a copy error after `os.Create` with the partially written bytes left
behind (the code does not remove them), or success with the fetched bytes. -/
inductive DlOut
  | errNoFile (msg : GoStr)
  | errMidCopy (written : GoStr) (msg : GoStr)
  | okBytes (bytes : GoStr)

/-- External outcomes of one poll cycle: the `check` call's result and the
OS-level results of download, `os.Rename`, `os.Chmod`, `os.Symlink`, and the
`cmd.Start` half of `restartAlgorithm` (`stopAlgorithm` always returns nil in
the source). -/
structure PollInput where
  checkResult : Except GoStr CheckResp
  download : DlOut
  renameOk : Bool
  chmodOk : Bool
  symlinkOk : Bool
  startOk : Bool

/-- One poll cycle (`runOnce`): check, download to `download_<v>`, verify the
digest against the release's, rename to `algo_<v>`, chmod, re-point the
`algo_current` symlink (the old link is removed first, its error ignored),
restart the supervised process, and only then write the `current_version`
record.  The Go guard `!ck.UpdateAvailable || ck.Latest == nil` is modelled
by the nested latest/updateAvailable tests (same combined condition). -/
def runOnce (hash : GoStr → GoStr) (inp : PollInput) (st : ClientState) :
    Except GoStr Unit × ClientState :=
  match inp.checkResult with
  | .error e => (.error e, st)
  | .ok ck =>
    match ck.latest with
    | none => (.ok (), st)
    | some l =>
      if ck.updateAvailable then
        match inp.download with
        | .errNoFile m => (.error m, st)
        | .errMidCopy w m =>
          (.error m, { st with files := mapSet (tmpName l.version) w st.files })
        | .okBytes bs =>
          let st1 : ClientState := { st with files := mapSet (tmpName l.version) bs st.files }
          match verifySha256 hash st1.files (tmpName l.version) l.sha256 with
          | .error e => (.error e, st1)
          | .ok okv =>
            if okv = false then
              (.error (gs "sha256 mismatch"),
               { st1 with files := eraseKey (tmpName l.version) st1.files })
            else if inp.renameOk = false then (.error (gs "rename failed"), st1)
            else
              let fs2 := mapSet (dstName l.version) bs (eraseKey (tmpName l.version) st1.files)
              let st2 : ClientState := { st1 with files := fs2 }
              if inp.chmodOk = false then (.error (gs "chmod failed"), st2)
              else
                let st3 : ClientState := { st2 with link := none }
                if inp.symlinkOk = false then (.error (gs "symlink failed"), st3)
                else
                  let st4 : ClientState := { st3 with link := some (dstName l.version) }
                  let st5 : ClientState := { st4 with running := none }
                  if inp.startOk = false then (.error (gs "start failed"), st5)
                  else
                    let st6 : ClientState := { st5 with running := some linkName }
                    (.ok (), { st6 with files := mapSet recName l.version st6.files })
      else (.ok (), st)

/-- C2: when the digest computed over the downloaded bytes differs from the
digest declared in the release returned by check, the cycle fails with the
"sha256 mismatch" integrity error, the temporary download file is deleted, no
other file changes (no rename to `algo_<v>`), the indicator and the
supervised process are untouched, and the persisted current-version record is
unchanged. -/
theorem verify_mismatch_aborts (hash : GoStr → GoStr) (inp : PollInput) (st : ClientState)
    (ck : CheckResp) (l : Release) (bs : GoStr)
    (hck : inp.checkResult = .ok ck) (hl : ck.latest = some l)
    (hupd : ck.updateAvailable = true) (hdl : inp.download = .okBytes bs)
    (hmis : ¬(hash bs = l.sha256)) :
    (runOnce hash inp st).1 = .error (gs "sha256 mismatch") ∧
    alookup (runOnce hash inp st).2.files (tmpName l.version) = none ∧
    (∀ p : GoStr, ¬(p = tmpName l.version) →
       alookup (runOnce hash inp st).2.files p = alookup st.files p) ∧
    (runOnce hash inp st).2.link = st.link ∧
    (runOnce hash inp st).2.running = st.running ∧
    readCurrentVersion (runOnce hash inp st).2 = readCurrentVersion st := by
  have hver : verifySha256 hash (mapSet (tmpName l.version) bs st.files)
      (tmpName l.version) l.sha256 = .ok false := by
    simp [verifySha256, alookup_mapSet, hmis]
  have hrun : runOnce hash inp st =
      (.error (gs "sha256 mismatch"),
       { st with files := eraseKey (tmpName l.version) (mapSet (tmpName l.version) bs st.files) }) := by
    simp [runOnce, hck, hl, hupd, hdl, hver]
  rw [hrun]
  refine ⟨rfl, ?_, ?_, rfl, rfl, ?_⟩
  · simp [alookup_eraseKey]
  · intro p hp
    simp [alookup_eraseKey, alookup_mapSet, hp]
  · simp [readCurrentVersion, alookup_eraseKey, alookup_mapSet,
      recName_ne_tmpName l.version]

/-- C2 witness: a concrete cycle in which the downloaded bytes hash to a
value different from the declared digest, through the theorem. -/
theorem verify_mismatch_aborts_witness :
    (runOnce demoHash
      ⟨.ok ⟨true, some ⟨gs "2.0.0", gs "stable", gs "/download/2.0.0", gs "x", [], 0,
          artPath (gs "2.0.0")⟩, gs "new version available"⟩,
        .okBytes (gs "bad"), true, true, true, true⟩
      ⟨[], none, none⟩).1 = .error (gs "sha256 mismatch") :=
  (verify_mismatch_aborts demoHash
    ⟨.ok ⟨true, some ⟨gs "2.0.0", gs "stable", gs "/download/2.0.0", gs "x", [], 0,
        artPath (gs "2.0.0")⟩, gs "new version available"⟩,
      .okBytes (gs "bad"), true, true, true, true⟩
    ⟨[], none, none⟩
    ⟨true, some ⟨gs "2.0.0", gs "stable", gs "/download/2.0.0", gs "x", [], 0,
        artPath (gs "2.0.0")⟩, gs "new version available"⟩
    ⟨gs "2.0.0", gs "stable", gs "/download/2.0.0", gs "x", [], 0, artPath (gs "2.0.0")⟩
    (gs "bad") rfl rfl rfl rfl (by decide)).1

/-- In every poll cycle the record file is untouched unless the cycle reached
a successful restart and returned nil. -/
theorem runOnce_record_or_success (hash : GoStr → GoStr) (inp : PollInput) (st : ClientState) :
    readCurrentVersion (runOnce hash inp st).2 = readCurrentVersion st ∨
    (inp.startOk = true ∧ (runOnce hash inp st).1 = .ok ()) := by
  rcases hck : inp.checkResult with e0 | ck
  · left; simp [runOnce, hck]
  · rcases hl : ck.latest with _ | l
    · left; simp [runOnce, hck, hl]
    · rcases hupd : ck.updateAvailable with _ | _
      · left; simp [runOnce, hck, hl, hupd]
      · rcases hdl : inp.download with m | ⟨w, m2⟩ | bs
        · left; simp [runOnce, hck, hl, hupd, hdl]
        · left
          simp [runOnce, hck, hl, hupd, hdl, readCurrentVersion, alookup_mapSet,
            recName_ne_tmpName l.version]
        · have hver : verifySha256 hash (mapSet (tmpName l.version) bs st.files)
              (tmpName l.version) l.sha256 = .ok (hash bs == l.sha256) := by
            simp [verifySha256, alookup_mapSet]
          rcases hb : hash bs == l.sha256 with _ | _
          · left
            simp [runOnce, hck, hl, hupd, hdl, hver, hb, readCurrentVersion,
              alookup_eraseKey, alookup_mapSet, recName_ne_tmpName l.version]
          · rcases hrn : inp.renameOk with _ | _
            · left
              simp [runOnce, hck, hl, hupd, hdl, hver, hb, hrn, readCurrentVersion,
                alookup_mapSet, recName_ne_tmpName l.version]
            · rcases hcm : inp.chmodOk with _ | _
              · left
                simp [runOnce, hck, hl, hupd, hdl, hver, hb, hrn, hcm, readCurrentVersion,
                  alookup_mapSet, alookup_eraseKey, recName_ne_tmpName l.version,
                  recName_ne_dstName l.version]
              · rcases hsy : inp.symlinkOk with _ | _
                · left
                  simp [runOnce, hck, hl, hupd, hdl, hver, hb, hrn, hcm, hsy,
                    readCurrentVersion, alookup_mapSet, alookup_eraseKey,
                    recName_ne_tmpName l.version, recName_ne_dstName l.version]
                · rcases hst : inp.startOk with _ | _
                  · left
                    simp [runOnce, hck, hl, hupd, hdl, hver, hb, hrn, hcm, hsy, hst,
                      readCurrentVersion, alookup_mapSet, alookup_eraseKey,
                      recName_ne_tmpName l.version, recName_ne_dstName l.version]
                  · right
                    refine ⟨rfl, ?_⟩
                    simp [runOnce, hck, hl, hupd, hdl, hver, hb, hrn, hcm, hsy, hst]

/-- C6: the persisted current-version record is overwritten only after the
supervisor's restart reported success: a cycle that fails at any step (check,
download, verification, rename, chmod, symlink, or process start) leaves the
record exactly as it was, and any cycle that does change the record had a
successful `cmd.Start` and returned nil. -/
theorem record_written_only_after_restart (hash : GoStr → GoStr) (inp : PollInput)
    (st : ClientState) :
    (∀ e : GoStr, (runOnce hash inp st).1 = .error e →
       readCurrentVersion (runOnce hash inp st).2 = readCurrentVersion st) ∧
    (¬(readCurrentVersion (runOnce hash inp st).2 = readCurrentVersion st) →
       inp.startOk = true ∧ (runOnce hash inp st).1 = .ok ()) := by
  rcases runOnce_record_or_success hash inp st with hpres | ⟨hst, hok⟩
  · exact ⟨fun e _ => hpres, fun hneq => absurd hpres hneq⟩
  · constructor
    · intro e herr
      rw [herr] at hok
      exact absurd hok (by simp)
    · intro _
      exact ⟨hst, hok⟩

/-- C6 witness: a concrete cycle whose process start fails; through the
theorem the record is unchanged. -/
theorem record_written_only_after_restart_witness :
    readCurrentVersion (runOnce demoHash
      ⟨.ok ⟨true, some ⟨gs "2.0.0", gs "stable", gs "/download/2.0.0", demoHash (gs "ok"),
          [], 0, artPath (gs "2.0.0")⟩, gs "new version available"⟩,
        .okBytes (gs "ok"), true, true, true, false⟩
      ⟨[(recName, gs "1.0.0")], none, none⟩).2 =
    readCurrentVersion ⟨[(recName, gs "1.0.0")], none, none⟩ :=
  (record_written_only_after_restart demoHash
    ⟨.ok ⟨true, some ⟨gs "2.0.0", gs "stable", gs "/download/2.0.0", demoHash (gs "ok"),
        [], 0, artPath (gs "2.0.0")⟩, gs "new version available"⟩,
      .okBytes (gs "ok"), true, true, true, false⟩
    ⟨[(recName, gs "1.0.0")], none, none⟩).1 (gs "start failed") rfl
